import Mathlib

/-!
Verification of the metrics computation pipeline of the stock-analysis
dashboard (risk rating classifier, fundamental score engine, risk metrics
engine, technical indicator boundary, OHLCV validation).

Shallow embedding conventions:
* Python floats are modelled as rationals (ℚ).  A pandas `NaN` cell is
  modelled as `none` in `Option ℚ` (named `Cell`); numpy non-finite
  scalars (nan / inf / -inf) are modelled by the `NpVal` type where the
  distinction matters.
* pandas Series become `List Cell`; DataFrames become `Df` (explicit row
  count plus an ordered association list of named columns).  In-place
  column assignment (`df[c] = s`) becomes explicit state passing through
  `setCol`.
* Fallible Python code (KeyError / IndexError, `try`/`except`) is
  modelled with `Except`.
* `float`-valued square roots (np.sqrt) are modelled by the computable
  rational Newton approximation `ratSqrt`; no verified claim depends on
  the numeric value of a square root.
-/

namespace StockAnalysis

/-- A pandas cell: a rational number or NaN (`none`). -/
abbrev Cell := Option ℚ

/-- Numpy scalar with non-finite values, used where NaN and ±inf must be
distinguished (RSI division, beta division). -/
inductive NpVal where
  | num (q : ℚ)
  | nan
  | inf
  | ninf
deriving DecidableEq, Repr

/-- Newton-iteration step for the rational square-root approximation. -/
def sqrtIter (x : ℚ) : Nat → ℚ → ℚ
  | 0, g => g
  | n + 1, g => sqrtIter x n ((g + x / g) / 2)

/-- Computable rational stand-in for np.sqrt (float sqrt).  No claim in
this development depends on its numeric value. -/
def ratSqrt (x : ℚ) : ℚ :=
  if x ≤ 0 then 0 else sqrtIter x 4 (max x 1)

/- ===================== 4.5 Risk Rating Classifier =====================
Embedded from src/components/risk.py, `RiskAssessment.get_risk_rating`.
Input: the three fields of the risk-metrics mapping that the function
reads (`annual_volatility`, `beta` — nullable —, `max_drawdown`). -/

namespace RiskAssessment

/-- Embeds `RiskAssessment.get_risk_rating` (src/components/risk.py
lines 169-227): additive risk score over volatility, beta and drawdown
tiers, mapped to a rating string plus the list of triggered reasons. -/
def get_risk_rating (annual_vol : ℚ) (beta : Option ℚ) (max_drawdown : ℚ) :
    String × List String :=
  let volPart : Nat × List String :=
    if annual_vol > 0.40 then (3, ["Very high volatility"])
    else if annual_vol > 0.25 then (2, ["High volatility"])
    else if annual_vol > 0.15 then (1, ["Moderate volatility"])
    else (0, [])
  let betaPart : Nat × List String :=
    match beta with
    | none => (0, [])
    | some b =>
      if b > 1.5 then (3, ["Very high market sensitivity"])
      else if b > 1.2 then (2, ["High market sensitivity"])
      else if b > 1 then (1, ["Above-market sensitivity"])
      else (0, [])
  let ddPart : Nat × List String :=
    if max_drawdown < -0.50 then (3, ["Severe historical drawdowns"])
    else if max_drawdown < -0.30 then (2, ["Significant historical drawdowns"])
    else if max_drawdown < -0.20 then (1, ["Moderate historical drawdowns"])
    else (0, [])
  let risk_score := volPart.1 + betaPart.1 + ddPart.1
  let rating :=
    if risk_score ≥ 7 then "Very High Risk"
    else if risk_score ≥ 5 then "High Risk"
    else if risk_score ≥ 3 then "Moderate Risk"
    else "Low Risk"
  (rating, volPart.2 ++ betaPart.2 ++ ddPart.2)

end RiskAssessment

/- Spec-side model of §4.5 of the specification: three independent axes
contributing 0-3 points on fixed thresholds, additive total, threshold
mapping to the rating, factor list = triggered reasons in evaluation
order (volatility, beta, drawdown). -/

/-- Spec §4.5: points for the annual-volatility axis. -/
def specVolPoints (annual_vol : ℚ) : Nat :=
  if annual_vol > 0.40 then 3
  else if annual_vol > 0.25 then 2
  else if annual_vol > 0.15 then 1
  else 0

/-- Spec §4.5: triggered reason strings for the volatility axis. -/
def specVolFactors (annual_vol : ℚ) : List String :=
  if annual_vol > 0.40 then ["Very high volatility"]
  else if annual_vol > 0.25 then ["High volatility"]
  else if annual_vol > 0.15 then ["Moderate volatility"]
  else []

/-- Spec §4.5: points for the beta axis; an absent beta contributes 0. -/
def specBetaPoints (beta : Option ℚ) : Nat :=
  match beta with
  | none => 0
  | some b =>
    if b > 1.5 then 3
    else if b > 1.2 then 2
    else if b > 1 then 1
    else 0

/-- Spec §4.5: triggered reason strings for the beta axis. -/
def specBetaFactors (beta : Option ℚ) : List String :=
  match beta with
  | none => []
  | some b =>
    if b > 1.5 then ["Very high market sensitivity"]
    else if b > 1.2 then ["High market sensitivity"]
    else if b > 1 then ["Above-market sensitivity"]
    else []

/-- Spec §4.5: points for the max-drawdown axis (more negative = worse). -/
def specDdPoints (max_drawdown : ℚ) : Nat :=
  if max_drawdown < -0.50 then 3
  else if max_drawdown < -0.30 then 2
  else if max_drawdown < -0.20 then 1
  else 0

/-- Spec §4.5: triggered reason strings for the drawdown axis. -/
def specDdFactors (max_drawdown : ℚ) : List String :=
  if max_drawdown < -0.50 then ["Severe historical drawdowns"]
  else if max_drawdown < -0.30 then ["Significant historical drawdowns"]
  else if max_drawdown < -0.20 then ["Moderate historical drawdowns"]
  else []

/-- Spec §4.5: total score maps to the discrete rating. -/
def specRatingOfScore (s : Nat) : String :=
  if s ≥ 7 then "Very High Risk"
  else if s ≥ 5 then "High Risk"
  else if s ≥ 3 then "Moderate Risk"
  else "Low Risk"

/-- Spec §4.5: the full risk-rating classifier written from the spec
sentences: additive score over the three axes, threshold mapping, and
the triggered factor strings in fixed order volatility, beta, drawdown. -/
def specRiskRating (annual_vol : ℚ) (beta : Option ℚ) (max_drawdown : ℚ) :
    String × List String :=
  (specRatingOfScore
      (specVolPoints annual_vol + specBetaPoints beta + specDdPoints max_drawdown),
   specVolFactors annual_vol ++ specBetaFactors beta ++ specDdFactors max_drawdown)

/- ===================== pandas Series primitives =====================
Cell-level arithmetic follows pandas NaN propagation: any operation on
NaN is NaN.  Division by zero (which produces a non-finite float in
pandas/numpy) is modelled as the undefined marker `none`; the claims
verified below never depend on distinguishing ±inf from NaN inside a
Series (where they must be distinguished, `NpVal` is used instead). -/

/-- NaN-propagating subtraction of cells. -/
def subC (a b : Cell) : Cell :=
  a.bind fun x => b.map fun y => x - y

/-- NaN-propagating multiplication of cells. -/
def mulC (a b : Cell) : Cell :=
  a.bind fun x => b.map fun y => x * y

/-- NaN-propagating division of cells; division by zero is undefined. -/
def divC (a b : Cell) : Cell :=
  a.bind fun x => b.bind fun y => if y = 0 then none else some (x / y)

/-- Tail worker for `pctChangeS`: previous value is `p`. -/
def pctAux (p : Cell) : List Cell → List Cell
  | [] => []
  | y :: ys => divC (subC y p) p :: pctAux y ys

/-- pandas `Series.pct_change()`: first entry NaN, then consecutive
relative changes. -/
def pctChangeS : List Cell → List Cell
  | [] => []
  | x :: xs => none :: pctAux x xs

/-- pandas `Series.cumprod()` (skipna=True) worker: NaN entries stay NaN
and are skipped in the running product. -/
def cumprodAux (acc : ℚ) : List Cell → List Cell
  | [] => []
  | none :: xs => none :: cumprodAux acc xs
  | some v :: xs => some (acc * v) :: cumprodAux (acc * v) xs

/-- pandas `Series.cumprod()` with skipna semantics. -/
def cumprodSkipNa (l : List Cell) : List Cell := cumprodAux 1 l

/-- pandas `Series.expanding().max()` worker: running max of the non-NaN
prefix, NaN while nothing has been seen. -/
def expMaxCellAux (acc : Option ℚ) : List Cell → List Cell
  | [] => []
  | none :: xs => acc :: expMaxCellAux acc xs
  | some v :: xs =>
    let m := match acc with
      | none => v
      | some a => max a v
    some m :: expMaxCellAux (some m) xs

/-- pandas `Series.expanding().max()`. -/
def expandingMaxSkipNa (l : List Cell) : List Cell := expMaxCellAux none l

/-- pandas `Series.min()` (skipna=True) worker. -/
def minSkipNaAux (acc : Option ℚ) : List Cell → Option ℚ
  | [] => acc
  | none :: xs => minSkipNaAux acc xs
  | some v :: xs =>
    minSkipNaAux
      (some (match acc with
        | none => v
        | some a => min a v)) xs

/-- pandas `Series.min()` with skipna semantics (`NaN` iff no defined
entry exists). -/
def minSkipNa (l : List Cell) : Option ℚ := minSkipNaAux none l

/- ===================== 4.4 Max drawdown =====================
Two source implementations are embedded: the price-based
`FinancialCalculations.calculate_max_drawdown` (src/utils/calculations.py
lines 52-57) and the returns-based `RiskAnalyzer.calculate_max_drawdown`
(src/components/risk.py lines 57-62, operating on the `Returns` column
produced by `pct_change`). -/

namespace FinancialCalculations

/-- Worker for `expandingMax`: running maximum with seed `m`. -/
def expMaxAux (m : ℚ) : List ℚ → List ℚ
  | [] => []
  | x :: xs => max m x :: expMaxAux (max m x) xs

/-- `Series.expanding().max()` on a NaN-free series. -/
def expandingMax : List ℚ → List ℚ
  | [] => []
  | x :: xs => x :: expMaxAux x xs

/-- `Series.min()` on a NaN-free series (`none` iff empty). -/
def minList : List ℚ → Option ℚ
  | [] => none
  | x :: xs => some (xs.foldl min x)

/-- Embeds `FinancialCalculations.calculate_max_drawdown`
(src/utils/calculations.py lines 52-57): minimum of
prices / running-max(prices) - 1. -/
def calculate_max_drawdown (prices : List ℚ) : Option ℚ :=
  minList (List.zipWith (fun p m => p / m - 1) prices (expandingMax prices))

end FinancialCalculations

namespace RiskAnalyzer

/-- Embeds `RiskAnalyzer.calculate_max_drawdown` (src/components/risk.py
lines 57-62): cumulative product of (1 + Returns), running max, minimum
of the ratio minus one, with pandas skipna semantics throughout (the
`Returns` series starts with the NaN produced by `pct_change`). -/
def calculate_max_drawdown (returns : List Cell) : Cell :=
  let cumulative_returns := cumprodSkipNa (returns.map (Option.map (fun r => 1 + r)))
  let rolling_max := expandingMaxSkipNa cumulative_returns
  let drawdowns :=
    List.zipWith (fun c m => subC (divC c m) (some 1)) cumulative_returns rolling_max
  minSkipNa drawdowns

end RiskAnalyzer

/- Proof-side pure counterparts of the skipna Series pipeline, used to
relate the returns-based drawdown to the price-based one. -/

/-- Pure pct_change values of a NaN-free series, previous value `p`. -/
def pctPure (p : ℚ) : List ℚ → List ℚ
  | [] => []
  | y :: ys => (y - p) / p :: pctPure y ys

/-- Consecutive quotients of a NaN-free series, previous value `p`. -/
def quotStep (p : ℚ) : List ℚ → List ℚ
  | [] => []
  | y :: ys => y / p :: quotStep y ys

/-- Running products with seed `a`. -/
def prodScan (a : ℚ) : List ℚ → List ℚ
  | [] => []
  | x :: xs => a * x :: prodScan (a * x) xs

/-- Arithmetic mean of a rational list (pandas `Series.mean()` over the
defined values; NaN for an empty selection). -/
def meanQ (l : List ℚ) : Option ℚ :=
  if l = [] then none else some (l.sum / l.length)

/- ===================== 4.4 VaR / CVaR =====================
Embedded from src/utils/calculations.py, `RiskCalculations.calculate_var`
(lines 174-180) and `RiskCalculations.calculate_cvar` (lines 182-189).
`np.percentile` uses the default linear-interpolation method on the
sorted data; with confidence_level = 0.95 the queried percentile is
(1 - 0.95) × 100 = 5. -/

namespace RiskCalculations

/-- The sorted copy `np.percentile` works on. -/
def sortedOf (l : List ℚ) : List ℚ := l.insertionSort (· ≤ ·)

/-- The fractional rank q/100 × (n - 1) of `np.percentile`. -/
def pctPos (l : List ℚ) (q : ℚ) : ℚ := q / 100 * ((l.length : ℚ) - 1)

/-- The lower interpolation index ⌊rank⌋. -/
def pctIdx (l : List ℚ) (q : ℚ) : ℕ := (⌊pctPos l q⌋).toNat

/-- The sorted value at the lower interpolation index. -/
def pctLo (l : List ℚ) (q : ℚ) : ℚ := (sortedOf l).getD (pctIdx l q) 0

/-- The sorted value at the upper interpolation index (falling back to
the lower value at the right edge). -/
def pctHi (l : List ℚ) (q : ℚ) : ℚ :=
  (sortedOf l).getD (pctIdx l q + 1) (pctLo l q)

/-- `np.percentile(a, q)` with linear interpolation; NaN on empty input. -/
def percentileLinear (l : List ℚ) (q : ℚ) : Option ℚ :=
  if l = [] then none
  else some (pctLo l q +
    (pctPos l q - (⌊pctPos l q⌋ : ℚ)) * (pctHi l q - pctLo l q))

/-- Embeds `RiskCalculations.calculate_var` (src/utils/calculations.py
lines 174-180): the 5th percentile of the return distribution. -/
def calculate_var (returns : List ℚ) : Option ℚ :=
  percentileLinear returns 5

/-- Embeds `RiskCalculations.calculate_cvar` (src/utils/calculations.py
lines 182-189): the mean of the returns at or below the VaR cutoff. -/
def calculate_cvar (returns : List ℚ) : Option ℚ :=
  (calculate_var returns).bind fun v => meanQ (returns.filter (fun r => r ≤ v))

end RiskCalculations

/- ===================== DataFrames =====================
A pandas DataFrame is modelled as an explicit row count plus an ordered
association list of named columns (pandas column order is insertion
order; assigning to an existing column replaces it in place, assigning a
new name appends it at the end). -/

/-- A pandas DataFrame. -/
structure Df where
  nrows : ℕ
  cols : List (String × List Cell)
deriving DecidableEq, Repr

/-- `df[name]` as a lookup (a missing column is the caller's KeyError). -/
def colGet (df : Df) (name : String) : Option (List Cell) :=
  df.cols.lookup name

/-- Worker for `setCol`: replace in place or append at the end. -/
def setColList (cols : List (String × List Cell)) (n : String)
    (s : List Cell) : List (String × List Cell) :=
  match cols with
  | [] => [(n, s)]
  | (m, t) :: rest =>
    if m = n then (n, s) :: rest else (m, t) :: setColList rest n s

/-- `df[name] = series`, as explicit state passing. -/
def setCol (df : Df) (n : String) (s : List Cell) : Df :=
  ⟨df.nrows, setColList df.cols n s⟩

/- ===================== 4.1 Series preparation =====================
Embedded from src/utils/data_fetcher.py, `validate_ohlcv_data`
(lines 289-310).  Note the third check is `df.isnull().any().any()`,
which scans every column of the frame, not only the required five. -/

/-- The required OHLCV columns, in the source's order. -/
def required_columns : List String := ["Open", "High", "Low", "Close", "Volume"]

/-- Embeds `validate_ohlcv_data` (src/utils/data_fetcher.py lines
289-310): checks required columns, then emptiness, then any null cell
anywhere in the frame, raising DataValidationError (modelled as
`Except.error` with the raise message) at the first failing check. -/
def validate_ohlcv_data (df : Df) : Except String Bool :=
  if ¬ (required_columns.all fun c => df.cols.any fun p => p.1 == c) then
    .error "Missing required columns in OHLCV data"
  else if df.nrows = 0 then
    .error "Empty dataset"
  else if df.cols.any (fun p => p.2.any fun x => x.isNone) then
    .error "Dataset contains missing values"
  else
    .ok true

/- ===================== 4.2 RSI =====================
Embedded from src/utils/calculations.py,
`TechnicalCalculations.calculate_rsi` (lines 130-138).  The rs and rsi
series are modelled over `NpVal` because the claim hinges on the
numpy distinction between 0/0 (NaN) and x/0 with x > 0 (inf). -/

namespace TechnicalCalculations

/-- Worker for `diffS`: previous value is `p`. -/
def diffAux (p : Cell) : List Cell → List Cell
  | [] => []
  | y :: ys => subC y p :: diffAux y ys

/-- pandas `Series.diff()`: first entry NaN, then consecutive differences. -/
def diffS : List Cell → List Cell
  | [] => []
  | x :: xs => none :: diffAux x xs

/-- `delta.where(delta > 0, 0)`: keep positive deltas, replace everything
else (including the leading NaN, whose comparison is False) by 0. -/
def whereGain (delta : List Cell) : List Cell :=
  delta.map fun o =>
    match o with
    | some v => if 0 < v then some v else some 0
    | none => some 0

/-- `-delta.where(delta < 0, 0)`: magnitudes of negative deltas, 0
elsewhere (including the leading NaN). -/
def whereLoss (delta : List Cell) : List Cell :=
  delta.map fun o =>
    match o with
    | some v => if v < 0 then some (-v) else some 0
    | none => some 0

/-- pandas `Series.rolling(window).mean()` with the default
min_periods = window: defined exactly where a full NaN-free window is
available. -/
def rollingMeanS (w : ℕ) (l : List Cell) : List Cell :=
  (List.range l.length).map fun i =>
    if i + 1 < w then none
    else
      let win := (l.take (i + 1)).drop (i + 1 - w)
      if win.any (fun x => x.isNone) then none
      else meanQ (win.filterMap id)

/-- numpy elementwise division gain/loss: 0/0 is NaN, positive/0 is inf,
negative/0 is -inf, NaN operands give NaN. -/
def rsOf (g l : Cell) : NpVal :=
  match g, l with
  | some a, some b =>
    if b ≠ 0 then .num (a / b)
    else if 0 < a then .inf
    else if a < 0 then .ninf
    else .nan
  | _, _ => .nan

/-- The final map 100 - 100/(1 + rs) under float semantics: an infinite
rs saturates to 100, NaN propagates, rs = -1 gives a zero denominator
and hence -inf. -/
def rsiOf (rs : NpVal) : NpVal :=
  match rs with
  | .num v => if v = -1 then .ninf else .num (100 - 100 / (1 + v))
  | .nan => .nan
  | .inf => .num 100
  | .ninf => .num 100

/-- Embeds `TechnicalCalculations.calculate_rsi`
(src/utils/calculations.py lines 130-138): rolling mean of gains and
losses over the period, rs = gain/loss, RSI = 100 - 100/(1 + rs). -/
def calculate_rsi (prices : List Cell) (period : ℕ) : List NpVal :=
  let delta := diffS prices
  let gain := rollingMeanS period (whereGain delta)
  let loss := rollingMeanS period (whereLoss delta)
  List.zipWith (fun g l => rsiOf (rsOf g l)) gain loss

end TechnicalCalculations

/-- NaN-propagating addition of cells. -/
def addC (a b : Cell) : Cell :=
  a.bind fun x => b.map fun y => x + y

/-- Float comparison a > b: False when either side is NaN. -/
def cmpGT (a b : Cell) : Bool :=
  match a, b with
  | some x, some y => decide (x > y)
  | _, _ => false

/-- Float comparison a < b: False when either side is NaN. -/
def cmpLT (a b : Cell) : Bool :=
  match a, b with
  | some x, some y => decide (x < y)
  | _, _ => false

/-- Float comparison a ≤ b: False when either side is NaN. -/
def cmpLE (a b : Cell) : Bool :=
  match a, b with
  | some x, some y => decide (x ≤ y)
  | _, _ => false

/-- pandas `Series.dropna()`. -/
def dropNa (l : List Cell) : List ℚ := l.filterMap id

/-- pandas `Series.mean()` (skipna): mean of the defined values, NaN when
none exist. -/
def meanS (l : List Cell) : Cell := meanQ (dropNa l)

/-- pandas `Series.std()` (ddof = 1, skipna): NaN with fewer than 2
defined values; the float square root is modelled by `ratSqrt`. -/
def stdS (l : List Cell) : Cell :=
  let v := dropNa l
  if v.length < 2 then none
  else some (ratSqrt
    ((v.map (fun x => (x - v.sum / (v.length : ℚ)) ^ 2)).sum /
      ((v.length : ℚ) - 1)))

/-- pandas `Series.skew()` (unbiased): NaN with fewer than 3 defined
values or zero variance; float arithmetic modelled over ℚ with `ratSqrt`. -/
def skewS (l : List Cell) : Cell :=
  let v := dropNa l
  let n : ℚ := v.length
  let m := v.sum / n
  let s2 := (v.map (fun x => (x - m) ^ 2)).sum / (n - 1)
  if v.length < 3 ∨ s2 = 0 then none
  else some ((n / ((n - 1) * (n - 2))) *
    (v.map (fun x => ((x - m) / ratSqrt s2) ^ 3)).sum)

/-- pandas `Series.kurtosis()` (unbiased excess): NaN with fewer than 4
defined values or zero variance; float arithmetic modelled over ℚ. -/
def kurtS (l : List Cell) : Cell :=
  let v := dropNa l
  let n : ℚ := v.length
  let m := v.sum / n
  let s2 := (v.map (fun x => (x - m) ^ 2)).sum / (n - 1)
  if v.length < 4 ∨ s2 = 0 then none
  else some ((n * (n + 1)) / ((n - 1) * (n - 2) * (n - 3)) *
    (v.map (fun x => ((x - m) / ratSqrt s2) ^ 4)).sum -
    3 * (n - 1) ^ 2 / ((n - 2) * (n - 3)))

/-- `Series.max()` of a NaN-free list (`none` iff empty). -/
def maxList : List ℚ → Option ℚ
  | [] => none
  | x :: xs => some (xs.foldl max x)

/-- `iloc[-1]` where the series is provably non-empty (used only on
derived series whose length equals a non-empty source series). -/
def lastCell (l : List Cell) : Cell := l.getLast?.getD none

/-- pandas `Series.rolling(window).max()` with min_periods = window. -/
def rollingMaxS (w : ℕ) (l : List Cell) : List Cell :=
  (List.range l.length).map fun i =>
    if i + 1 < w then none
    else
      let win := (l.take (i + 1)).drop (i + 1 - w)
      if win.any (fun x => x.isNone) then none
      else maxList (dropNa win)

/-- pandas `Series.rolling(window).min()` with min_periods = window. -/
def rollingMinS (w : ℕ) (l : List Cell) : List Cell :=
  (List.range l.length).map fun i =>
    if i + 1 < w then none
    else
      let win := (l.take (i + 1)).drop (i + 1 - w)
      if win.any (fun x => x.isNone) then none
      else FinancialCalculations.minList (dropNa win)

/-- pandas `Series.rolling(window).std()` (ddof = 0, as the ta library
uses for Bollinger bands), with `ratSqrt` for the float square root. -/
def rollingStdS (w : ℕ) (l : List Cell) : List Cell :=
  (List.range l.length).map fun i =>
    if i + 1 < w then none
    else
      let winC := (l.take (i + 1)).drop (i + 1 - w)
      if winC.any (fun x => x.isNone) then none
      else
        let win := dropNa winC
        some (ratSqrt
          ((win.map (fun x => (x - win.sum / (win.length : ℚ)) ^ 2)).sum /
            (win.length : ℚ)))

/-- Coarse model of Python `%.1f` formatting (rounded tenths as an
integer string); no verified claim inspects these display strings. -/
def fmtQ1 (x : Cell) : String :=
  match x with
  | none => "nan"
  | some v => toString (⌊v * 10 + 1 / 2⌋ : ℤ)

/-- Python `sum` over booleans: True counts as 1. -/
def b2n (b : Bool) : ℕ := if b then 1 else 0

/-- A value of the indicators dictionary: a float or a string. -/
inductive IndVal where
  | num (v : Cell)
  | sval (s : String)
deriving DecidableEq, Repr

/- ===================== ta library =====================
The external ta library calls made by get_technical_indicators, modelled
from the library's documented formulas (the library is a third-party
dependency, not repository code).  No verified claim depends on the
numeric values these produce — only on their totality and series length. -/

namespace Ta

/-- `ta.trend.sma_indicator`: rolling mean over the window. -/
def sma_indicator (close : List Cell) (window : ℕ) : List Cell :=
  TechnicalCalculations.rollingMeanS window close

/-- `ewm(adjust=False)` recursion; NaN entries yield NaN and leave the
running state untouched. -/
def ewmAux (a : ℚ) (acc : Option ℚ) : List Cell → List Cell
  | [] => []
  | none :: xs => none :: ewmAux a acc xs
  | some v :: xs =>
    let m := match acc with
      | none => v
      | some p => (1 - a) * p + a * v
    some m :: ewmAux a (some m) xs

/-- `Series.ewm(alpha, adjust=False).mean()`. -/
def ewmMean (a : ℚ) (l : List Cell) : List Cell := ewmAux a none l

/-- Mask the first k entries as NaN (the min_periods warm-up). -/
def maskFirst (k : ℕ) (l : List Cell) : List Cell :=
  List.zipWith (fun i x => if i < k then none else x) (List.range l.length) l

/-- `ta.momentum.rsi`: Wilder smoothing (alpha = 1/window,
min_periods = window) of up and down moves, rs = emaup/emadn,
RSI = 100 - 100/(1 + rs). -/
def rsi (close : List Cell) (window : ℕ) : List Cell :=
  let delta := TechnicalCalculations.diffS close
  let up := TechnicalCalculations.whereGain delta
  let dn := TechnicalCalculations.whereLoss delta
  let emaup := maskFirst (window - 1) (ewmMean (1 / (window : ℚ)) up)
  let emadn := maskFirst (window - 1) (ewmMean (1 / (window : ℚ)) dn)
  List.zipWith
    (fun g l => subC (some 100) (divC (some 100) (addC (some 1) (divC g l))))
    emaup emadn

/-- `ewm(span, adjust=False)`: alpha = 2/(span + 1). -/
def emaSpan (span : ℕ) (l : List Cell) : List Cell :=
  ewmMean (2 / ((span : ℚ) + 1)) l

/-- `ta.trend.macd`: EMA(12) - EMA(26). -/
def macd_line (close : List Cell) : List Cell :=
  List.zipWith subC (emaSpan 12 close) (emaSpan 26 close)

/-- `ta.trend.macd_signal`: EMA(9) of the MACD line. -/
def macd_signal (close : List Cell) : List Cell :=
  emaSpan 9 (macd_line close)

/-- `ta.trend.macd_diff`: MACD line minus its signal line. -/
def macd_diff (close : List Cell) : List Cell :=
  List.zipWith subC (macd_line close) (macd_signal close)

/-- `ta.volatility.bollinger_mavg`: 20-period rolling mean. -/
def bollinger_mavg (close : List Cell) : List Cell :=
  TechnicalCalculations.rollingMeanS 20 close

/-- `ta.volatility.bollinger_hband`: mavg + 2 × rolling std. -/
def bollinger_hband (close : List Cell) : List Cell :=
  List.zipWith (fun m s => addC m (mulC (some 2) s))
    (bollinger_mavg close) (rollingStdS 20 close)

/-- `ta.volatility.bollinger_lband`: mavg - 2 × rolling std. -/
def bollinger_lband (close : List Cell) : List Cell :=
  List.zipWith (fun m s => subC m (mulC (some 2) s))
    (bollinger_mavg close) (rollingStdS 20 close)

end Ta

/- ===================== 4.4 Risk Metrics Engine =====================
Embedded from src/components/risk.py, `RiskAnalyzer` (lines 26-92).
`calculate_risk_metrics` mutates the caller's frame by assigning the
`Returns` column before computing the metrics mapping; the mutation is
made explicit by returning the updated frame (also on the error path,
as Python leaves the column attached when a later line raises). -/

namespace RiskAnalyzer

/-- Embeds `RiskAnalyzer.calculate_downside_deviation` (risk.py lines
89-92): RMS of the strictly negative returns; NaN mean on an empty
selection. -/
def calculate_downside_deviation (returns : List Cell) : Cell :=
  let negative_returns := (dropNa returns).filter (fun r => r < 0)
  if negative_returns = [] then none
  else some (ratSqrt
    ((negative_returns.map (fun r => r ^ 2)).sum /
      (negative_returns.length : ℚ)))

/-- Embeds `RiskAnalyzer.calculate_sharpe_ratio` (risk.py lines 46-49),
risk_free_rate = 0.02 (the `_ratio` suffix is dropped from the Lean
name). -/
def calculate_sharpe (returns : List Cell) : Cell :=
  divC (subC (mulC (meanS returns) (some 252)) (some 0.02))
    (mulC (stdS returns) (some (ratSqrt 252)))

/-- Embeds `RiskAnalyzer.calculate_sortino_ratio` (risk.py lines 51-55),
risk_free_rate = 0.02 (the `_ratio` suffix is dropped from the Lean
name). -/
def calculate_sortino (returns : List Cell) : Cell :=
  divC (subC (mulC (meanS returns) (some 252)) (some 0.02))
    (mulC (calculate_downside_deviation returns) (some (ratSqrt 252)))

/-- Embeds `RiskAnalyzer.calculate_var` (risk.py lines 64-66):
`np.percentile` does not skip NaNs, so the Returns series (which always
starts with the pct_change NaN) gives NaN; an empty input raises. -/
def calculate_var (returns : List Cell) : Except String Cell :=
  if returns.isEmpty then .error "IndexError: percentile of empty data"
  else if returns.any (fun x => x.isNone) then .ok none
  else .ok (RiskCalculations.percentileLinear (dropNa returns) 5)

/-- Sample covariance `np.cov(x, y)[0,1]` (ddof = 1); NaN when fewer
than 2 points. -/
def sampleCov (x y : List ℚ) : NpVal :=
  let n := x.length
  if n < 2 then .nan
  else .num
    ((List.zipWith
        (fun a b => (a - x.sum / (n : ℚ)) * (b - y.sum / (n : ℚ))) x y).sum /
      ((n : ℚ) - 1))

/-- Population variance `np.var(y)` (ddof = 0); NaN on empty input. -/
def popVar (y : List ℚ) : NpVal :=
  if y.length = 0 then .nan
  else .num
    ((y.map (fun b => (b - y.sum / (y.length : ℚ)) ^ 2)).sum /
      (y.length : ℚ))

/-- numpy scalar division: division by zero emits a warning (never an
exception) and produces inf, -inf or nan according to the numerator. -/
def divNp (a b : NpVal) : NpVal :=
  match a, b with
  | .num p, .num q =>
    if q ≠ 0 then .num (p / q)
    else if 0 < p then .inf
    else if p < 0 then .ninf
    else .nan
  | _, _ => .nan

/-- Embeds `RiskAnalyzer.calculate_beta` (risk.py lines 73-87).
`benchmark = none` models the yfinance download raising inside the bare
`try`; the only other exception is `np.cov` raising ValueError on
mismatched 1-D input lengths.  Equal lengths never raise — in
particular `np.cov` on two empty arrays only emits RuntimeWarnings and
yields a NaN covariance, and a zero benchmark variance only warns — so
those paths return the (possibly non-finite) numpy quotient, never
None. -/
def calculate_beta (returns : List Cell) (benchmark : Option (List Cell)) :
    Option NpVal :=
  match benchmark with
  | none => none
  | some bclose =>
    let benchmark_returns := pctChangeS bclose
    let x := dropNa returns
    let y := dropNa benchmark_returns
    if x.length = y.length then
      some (divNp (sampleCov x y) (popVar y))
    else none

/-- The risk-metrics mapping filled by `calculate_risk_metrics`
(`sharpe_ratio`/`sortino_ratio` keys carry the `_ratio`-less Lean
field names). -/
structure RiskMetricsMap where
  daily_volatility : Cell
  annual_volatility : Cell
  sharpe : Cell
  sortino : Cell
  max_drawdown : Cell
  var_95 : Cell
  cvar_95 : Cell
  beta : Option NpVal
  skewness : Cell
  kurtosis : Cell
  downside_deviation : Cell
deriving DecidableEq, Repr

/-- Embeds `RiskAnalyzer.calculate_risk_metrics` (risk.py lines 26-44):
attaches the `Returns` column to the caller's frame in place, then fills
the metrics mapping.  A missing Close column raises before any mutation;
an empty Returns series raises inside `np.percentile` after the column
has been attached (the error carries the frame state at raise time). -/
def calculate_risk_metrics (df : Df) (benchmark : Option (List Cell)) :
    Except (String × Df) (Df × RiskMetricsMap) :=
  match colGet df "Close" with
  | none => .error ("KeyError: Close", df)
  | some close =>
    let returns := pctChangeS close
    let df1 := setCol df "Returns" returns
    match calculate_var returns with
    | .error e => .error (e, df1)
    | .ok var =>
      .ok (df1,
        { daily_volatility := stdS returns
          annual_volatility := mulC (stdS returns) (some (ratSqrt 252))
          sharpe := calculate_sharpe returns
          sortino := calculate_sortino returns
          max_drawdown := calculate_max_drawdown returns
          var_95 := var
          cvar_95 := meanS (returns.filter (fun c => cmpLE c var))
          beta := calculate_beta returns benchmark
          skewness := skewS returns
          kurtosis := kurtS returns
          downside_deviation := calculate_downside_deviation returns })

/-- The metrics mapping without its beta entry, used to state that the
beta outcome never influences the rest of the metrics. -/
def nonBetaFields (m : RiskMetricsMap) : List Cell :=
  [m.daily_volatility, m.annual_volatility, m.sharpe, m.sortino,
   m.max_drawdown, m.var_95, m.cvar_95, m.skewness, m.kurtosis,
   m.downside_deviation]

/-- Project a `calculate_risk_metrics` outcome to everything but beta. -/
def stripBeta (r : Except (String × Df) (Df × RiskMetricsMap)) :
    Except (String × Df) (Df × List Cell) :=
  r.map fun p => (p.1, nonBetaFields p.2)

end RiskAnalyzer

/- ===================== 4.2/4.3 Technical indicator boundary ==========
Embedded from src/utils/technical_indicators.py,
`get_technical_indicators` (lines 9-150).  The body runs inside a
catch-all `try`; every fallible access (a missing column's KeyError, an
`iloc` IndexError on a short series) is an error exit.  The body's
in-place column assignments are collected in order and applied to the
caller's frame on return — on the error path too, since Python leaves
already-assigned columns attached when a later line raises. -/

/-- The nine columns the body assigns to the frame before any further
fallible access, in assignment order. -/
def tiNewCols (close : List Cell) : List (String × List Cell) :=
  [("MA20", Ta.sma_indicator close 20), ("MA50", Ta.sma_indicator close 50),
   ("MA200", Ta.sma_indicator close 200), ("RSI", Ta.rsi close 14),
   ("MACD", Ta.macd_diff close), ("MACD_Signal", Ta.macd_signal close),
   ("BB_upper", Ta.bollinger_hband close), ("BB_middle", Ta.bollinger_mavg close),
   ("BB_lower", Ta.bollinger_lband close)]

/-- The success-path indicators dictionary, in insertion order (the pure
value computations of the body, factored out of the control flow). -/
def tiDict (close : List Cell) (latest_close : Cell) (vol : List Cell)
    (current_volume recent_high recent_low : Cell) : List (String × IndVal) :=
  let ma20v := lastCell (Ta.sma_indicator close 20)
  let ma50v := lastCell (Ta.sma_indicator close 50)
  let ma200v := lastCell (Ta.sma_indicator close 200)
  let ma_signals :=
    (if cmpGT latest_close ma50v then ["Price above 50-day MA (Bullish)"]
     else ["Price below 50-day MA (Bearish)"]) ++
    (if cmpGT ma50v ma200v then ["Golden Cross pattern (Bullish)"]
     else if cmpLT ma50v ma200v then ["Death Cross pattern (Bearish)"]
     else [])
  let ma_status := String.intercalate "; " ma_signals
  let rsi_value := lastCell (Ta.rsi close 14)
  let rsi_signal :=
    if cmpGT rsi_value (some 70) then "Overbought"
    else if cmpLT rsi_value (some 30) then "Oversold"
    else "Neutral"
  let macd_value := lastCell (Ta.macd_diff close)
  let macd_sig := lastCell (Ta.macd_signal close)
  let macd_status := if cmpGT macd_value macd_sig then "Bullish" else "Bearish"
  let bb_upper := lastCell (Ta.bollinger_hband close)
  let bb_lower := lastCell (Ta.bollinger_lband close)
  let bb_status :=
    if cmpGT latest_close bb_upper then "Price above upper band (Overbought)"
    else if cmpLT latest_close bb_lower then "Price below lower band (Oversold)"
    else "Price within bands (Neutral)"
  let volRel := divC current_volume (meanS vol)
  let volume_signal :=
    if cmpGT volRel (some 2) then "Unusually high volume"
    else if cmpLT volRel (some 0.5) then "Unusually low volume"
    else "Normal volume"
  let c5 := close.getD (close.length - 5) none
  let c20 := close.getD (close.length - 20) none
  let st := mulC (divC (subC latest_close c5) c5) (some 100)
  let mt := mulC (divC (subC latest_close c20) c20) (some 100)
  let st_str := fmtQ1 st ++ "% " ++ (if cmpGT st (some 0) then "up" else "down")
  let mt_str := fmtQ1 mt ++ "% " ++ (if cmpGT mt (some 0) then "up" else "down")
  let bullish_signals :=
    b2n (cmpGT latest_close ma50v) + b2n (cmpGT ma50v ma200v) +
    b2n (cmpLE (some 30) rsi_value && cmpLE rsi_value (some 70)) +
    b2n (cmpGT macd_value macd_sig) + b2n (cmpGT volRel (some 1))
  let bearish_signals :=
    b2n (cmpLT latest_close ma50v) + b2n (cmpLT ma50v ma200v) +
    b2n (cmpGT rsi_value (some 70) || cmpLT rsi_value (some 30)) +
    b2n (cmpLT macd_value macd_sig) + b2n (cmpLT volRel (some 1))
  let overall :=
    if bullish_signals > bearish_signals then "Bullish"
    else if bearish_signals > bullish_signals then "Bearish"
    else "Neutral"
  let volat := mulC (mulC (stdS (pctChangeS close)) (some (ratSqrt 252))) (some 100)
  [("MA20", .num ma20v), ("MA50", .num ma50v), ("MA200", .num ma200v),
   ("MA_Status", .sval ma_status), ("RSI", .num rsi_value),
   ("RSI_Signal", .sval rsi_signal), ("MACD", .num macd_value),
   ("MACD_Signal", .sval macd_status), ("BB_Status", .sval bb_status),
   ("Volume_Signal", .sval volume_signal), ("Short_Term_Trend", .sval st_str),
   ("Medium_Term_Trend", .sval mt_str), ("Overall_Signal", .sval overall),
   ("Support_Level", .num recent_low), ("Resistance_Level", .num recent_high),
   ("Volatility", .sval (fmtQ1 volat ++ "%"))]

/-- The body of `get_technical_indicators` inside the `try`: the control
flow of its fallible accesses, returning the columns assigned so far and
(on success) the indicators dictionary. -/
def tiBody (df : Df) :
    Except (String × List (String × List Cell))
      (List (String × List Cell) × List (String × IndVal)) :=
  match colGet df "Close" with
  | none => .error ("KeyError: Close", [])
  | some close =>
    match close.getLast? with
    | none => .error ("IndexError: single positional indexer is out-of-bounds", [])
    | some latest_close =>
      match colGet df "Volume" with
      | none => .error ("KeyError: Volume", tiNewCols close)
      | some vol =>
        match vol.getLast? with
        | none =>
          .error ("IndexError: single positional indexer is out-of-bounds",
            tiNewCols close)
        | some current_volume =>
          if close.length < 5 then
            .error ("IndexError: index out of bounds", tiNewCols close)
          else if close.length < 20 then
            .error ("IndexError: index out of bounds", tiNewCols close)
          else
            match colGet df "High", colGet df "Low" with
            | none, _ => .error ("KeyError: High", tiNewCols close)
            | some _, none => .error ("KeyError: Low", tiNewCols close)
            | some high, some low =>
              match (rollingMaxS 20 high).getLast?,
                  (rollingMinS 20 low).getLast? with
              | some recent_high, some recent_low =>
                .ok (tiNewCols close,
                  tiDict close latest_close vol current_volume
                    recent_high recent_low)
              | _, _ =>
                .error ("IndexError: single positional indexer is out-of-bounds",
                  tiNewCols close)

/-- The fallback dictionary of the `except` branch. -/
def tiFallback (e : String) : List (String × IndVal) :=
  [("error", .sval e), ("MA_Status", .sval "N/A"), ("RSI", .sval "N/A"),
   ("MACD", .sval "N/A"), ("BB_Status", .sval "N/A"),
   ("Overall_Signal", .sval "N/A")]

/-- Embeds `get_technical_indicators`
(src/utils/technical_indicators.py lines 9-150): runs the body and, on
any internal failure, returns the fallback dictionary; in both cases the
columns assigned so far are applied to the caller's frame. -/
def get_technical_indicators (df : Df) : Df × List (String × IndVal) :=
  match tiBody df with
  | .ok (newCols, ind) => (newCols.foldl (fun d p => setCol d p.1 p.2) df, ind)
  | .error (e, newCols) =>
    (newCols.foldl (fun d p => setCol d p.1 p.2) df, tiFallback e)

set_option maxHeartbeats 1600000 in
/-- C1: for every RiskMetrics input the code's risk rating equals the
spec's additive three-axis score classifier (volatility thresholds
0.40/0.25/0.15, beta thresholds 1.5/1.2/1.0 with absent beta giving 0,
drawdown thresholds -0.50, -0.30, -0.20; total ≥7 Very High, ≥5 High,
≥3 Moderate, else Low; factor list = triggered reasons in fixed order),
and the Scenario E input (0.45, 1.6, -0.55) yields "Very High Risk" with
all three factor strings. -/
theorem c1_risk_rating_matches_spec :
    (∀ (av : ℚ) (beta : Option ℚ) (dd : ℚ),
      RiskAssessment.get_risk_rating av beta dd = specRiskRating av beta dd) ∧
    RiskAssessment.get_risk_rating 0.45 (some 1.6) (-0.55) =
      ("Very High Risk",
       ["Very high volatility", "Very high market sensitivity",
        "Severe historical drawdowns"]) := by
  constructor
  · intro av beta dd
    cases beta <;>
      simp only [RiskAssessment.get_risk_rating, specRiskRating, specVolPoints,
        specVolFactors, specBetaPoints, specBetaFactors, specDdPoints,
        specDdFactors, specRatingOfScore] <;>
      split_ifs <;> rfl
  · simp only [RiskAssessment.get_risk_rating]
    norm_num

/- ===================== 4.6 Fundamental scores =====================
Embedded from src/utils/financial_metrics.py,
`calculate_fundamental_scores` (lines 145-208).  The Python function
parses its eight numeric inputs back out of the formatted metric
strings; the embedding takes the parsed rational values directly, named
after the Python locals (`_ratio` suffixes dropped). -/

/-- The eight numeric values `calculate_fundamental_scores` parses from
the metrics mapping: P/E, P/B, profit margin (pct points), ROE (pct
points), revenue growth (pct points), earnings growth (pct points),
current ratio, debt/equity. -/
structure ScoreInputs where
  pe : ℚ
  pb : ℚ
  profit_margin : ℚ
  roe : ℚ
  revenue_growth : ℚ
  earnings_growth : ℚ
  current_r : ℚ
  debt_equity : ℚ
deriving DecidableEq, Repr

/-- The five scores returned by `calculate_fundamental_scores`. -/
structure FundamentalScores where
  Valuation_Score : ℚ
  Profitability_Score : ℚ
  Growth_Score : ℚ
  Financial_Health_Score : ℚ
  Overall_Score : ℚ
deriving DecidableEq, Repr

/-- Embeds `calculate_fundamental_scores` (src/utils/financial_metrics.py
lines 145-208), success path: clamped valuation / profitability / growth
/ financial-health scores and the 0.30/0.25/0.25/0.20 weighted overall
score. -/
def calculate_fundamental_scores (i : ScoreInputs) : FundamentalScores :=
  let valuation_score : ℚ :=
    if i.pe > 0 then min 100 (max 0 ((i.pe / 30 + i.pb / 3) * 50)) else 50
  let profitability_score : ℚ :=
    min 100 (max 0 (i.profit_margin * 3 + i.roe * 2))
  let growth_score : ℚ :=
    min 100 (max 0 ((i.revenue_growth + i.earnings_growth) * 2.5))
  let health_score : ℚ :=
    min 100 (max 0 (i.current_r * 30 - i.debt_equity * 10 + 50))
  { Valuation_Score := valuation_score
    Profitability_Score := profitability_score
    Growth_Score := growth_score
    Financial_Health_Score := health_score
    Overall_Score :=
      valuation_score * 0.3 + profitability_score * 0.25 +
      growth_score * 0.25 + health_score * 0.2 }

/-- C4: the valuation score is the clamp of (PE/30 + PB/3) × 50 whenever
the parsed P/E is strictly positive, and exactly 50 whenever PE ≤ 0; in
particular the Scenario C input trailingPE = -5 yields exactly 50. -/
theorem c4_valuation_score_rule (i : ScoreInputs) :
    (0 < i.pe →
      (calculate_fundamental_scores i).Valuation_Score =
        min 100 (max 0 ((i.pe / 30 + i.pb / 3) * 50))) ∧
    (i.pe ≤ 0 → (calculate_fundamental_scores i).Valuation_Score = 50) ∧
    (calculate_fundamental_scores
      { pe := -5, pb := 1, profit_margin := 10, roe := 10,
        revenue_growth := 5, earnings_growth := 5, current_r := 1,
        debt_equity := 1 }).Valuation_Score = 50 := by
  refine ⟨fun h => ?_, fun h => ?_, by rfl⟩
  · simp [calculate_fundamental_scores, h]
  · have : ¬ i.pe > 0 := not_lt.mpr h
    simp [calculate_fundamental_scores, this]

/-- Witness for C4 at the Scenario C input (trailingPE = -5). -/
theorem c4_valuation_score_rule_witness :
    (calculate_fundamental_scores
      { pe := -5, pb := 1, profit_margin := 10, roe := 10,
        revenue_growth := 5, earnings_growth := 5, current_r := 1,
        debt_equity := 1 }).Valuation_Score = 50 :=
  (c4_valuation_score_rule
    { pe := -5, pb := 1, profit_margin := 10, roe := 10,
      revenue_growth := 5, earnings_growth := 5, current_r := 1,
      debt_equity := 1 }).2.1 (by norm_num)

/-- C5: for arbitrary (including adversarial) inputs, every one of the
five fundamental scores — valuation, profitability, growth, financial
health, and the 0.30/0.25/0.25/0.20 weighted overall score — lies in
the interval [0, 100]. -/
theorem c5_scores_clamped (i : ScoreInputs) :
    (0 ≤ (calculate_fundamental_scores i).Valuation_Score ∧
      (calculate_fundamental_scores i).Valuation_Score ≤ 100) ∧
    (0 ≤ (calculate_fundamental_scores i).Profitability_Score ∧
      (calculate_fundamental_scores i).Profitability_Score ≤ 100) ∧
    (0 ≤ (calculate_fundamental_scores i).Growth_Score ∧
      (calculate_fundamental_scores i).Growth_Score ≤ 100) ∧
    (0 ≤ (calculate_fundamental_scores i).Financial_Health_Score ∧
      (calculate_fundamental_scores i).Financial_Health_Score ≤ 100) ∧
    (0 ≤ (calculate_fundamental_scores i).Overall_Score ∧
      (calculate_fundamental_scores i).Overall_Score ≤ 100) := by
  have hclamp : ∀ x : ℚ, 0 ≤ min 100 (max 0 x) ∧ min 100 (max 0 x) ≤ 100 :=
    fun x => ⟨le_min (by norm_num) (le_max_left 0 x), min_le_left _ _⟩
  have hv : 0 ≤ (calculate_fundamental_scores i).Valuation_Score ∧
      (calculate_fundamental_scores i).Valuation_Score ≤ 100 := by
    by_cases h : i.pe > 0
    · simpa [calculate_fundamental_scores, h] using
        hclamp ((i.pe / 30 + i.pb / 3) * 50)
    · constructor <;> simp [calculate_fundamental_scores, h] <;> norm_num
  have hp := hclamp (i.profit_margin * 3 + i.roe * 2)
  have hg := hclamp ((i.revenue_growth + i.earnings_growth) * 2.5)
  have hh := hclamp (i.current_r * 30 - i.debt_equity * 10 + 50)
  refine ⟨hv, ?_, ?_, ?_, ?_⟩
  · simpa [calculate_fundamental_scores] using hp
  · simpa [calculate_fundamental_scores] using hg
  · simpa [calculate_fundamental_scores] using hh
  · have h1 := hv.1; have h2 := hv.2
    have h3 := hp.1; have h4 := hp.2
    have h5 := hg.1; have h6 := hg.2
    have h7 := hh.1; have h8 := hh.2
    constructor <;>
      · simp only [calculate_fundamental_scores] at *
        nlinarith


/- Helper lemmas about folded minima. -/

/-- The left fold of `min` is bounded by its seed. -/
theorem foldl_min_le_init (l : List ℚ) : ∀ a : ℚ, l.foldl min a ≤ a := by
  induction l with
  | nil => intro a; simp
  | cons x xs ih =>
    intro a
    simpa using le_trans (ih (min a x)) (min_le_left a x)

/-- The left fold of `min` is bounded by every list element. -/
theorem foldl_min_le_mem (l : List ℚ) :
    ∀ (a y : ℚ), y ∈ l → l.foldl min a ≤ y := by
  induction l with
  | nil => intro a y hy; cases hy
  | cons x xs ih =>
    intro a y hy
    rcases List.mem_cons.mp hy with rfl | hy
    · simpa using le_trans (foldl_min_le_init xs (min a y)) (min_le_right a y)
    · simpa using ih (min a x) y hy

/-- The left fold of `min` equals its seed iff the seed is a lower bound. -/
theorem foldl_min_eq_init_iff (l : List ℚ) :
    ∀ a : ℚ, l.foldl min a = a ↔ ∀ y ∈ l, a ≤ y := by
  induction l with
  | nil => intro a; simp
  | cons x xs ih =>
    intro a
    constructor
    · intro h y hy
      exact h ▸ foldl_min_le_mem (x :: xs) a y hy
    · intro h
      have hax : min a x = a := min_eq_left (h x (List.mem_cons_self x xs))
      have := (ih (min a x)).mpr
        (fun y hy => le_trans (min_le_left a x) (h y (List.mem_cons.mpr (Or.inr hy))))
      simpa [hax] using this

/-- Drawdown entries over an expanding maximum seeded at `m`: all entries
are nonpositive, and all vanish exactly when the series never drops below
its running maximum, i.e. `m :: xs` climbs monotonically from `m`. -/
theorem gdd_facts (xs : List ℚ) :
    ∀ m : ℚ, 0 < m → (∀ x ∈ xs, 0 < x) →
    (∀ d ∈ List.zipWith (fun p q => p / q - 1) xs
        (FinancialCalculations.expMaxAux m xs), d ≤ 0) ∧
    ((∀ d ∈ List.zipWith (fun p q => p / q - 1) xs
        (FinancialCalculations.expMaxAux m xs), d = 0) ↔
      List.Chain (· ≤ ·) m xs) := by
  induction xs with
  | nil =>
    intro m hm hpos
    constructor
    · intro d hd; cases hd
    · simp
  | cons x xs ih =>
    intro m hm hpos
    have hx : 0 < x := hpos x (List.mem_cons_self x xs)
    have hxs : ∀ y ∈ xs, 0 < y := fun y hy => hpos y (List.mem_cons.mpr (Or.inr hy))
    have hmx : 0 < max m x := lt_of_lt_of_le hm (le_max_left m x)
    have hhead_le : x / max m x - 1 ≤ 0 :=
      sub_nonpos.mpr ((div_le_one hmx).mpr (le_max_right m x))
    have hhead_zero : x / max m x - 1 = 0 ↔ m ≤ x := by
      rw [sub_eq_zero, div_eq_one_iff_eq hmx.ne']
      constructor
      · intro h
        rw [h]
        exact le_max_left m x
      · intro h
        exact (max_eq_right h).symm
    have ihm := ih (max m x) hmx hxs
    constructor
    · intro d hd
      simp only [FinancialCalculations.expMaxAux, List.zipWith_cons_cons,
        List.mem_cons] at hd
      rcases hd with rfl | hd
      · exact hhead_le
      · exact ihm.1 d hd
    · simp only [FinancialCalculations.expMaxAux, List.zipWith_cons_cons,
        List.forall_mem_cons, List.chain_cons]
      constructor
      · rintro ⟨h0, htail⟩
        have hmle : m ≤ x := hhead_zero.mp h0
        have hmax : max m x = x := max_eq_right hmle
        refine ⟨hmle, ?_⟩
        have := ihm.2.mp htail
        rwa [hmax] at this
      · rintro ⟨hmle, hchain⟩
        have hmax : max m x = x := max_eq_right hmle
        refine ⟨hhead_zero.mpr hmle, ?_⟩
        exact ihm.2.mpr (by rwa [hmax])

/-- Core drawdown specification for the price-based implementation: for a
nonempty positive price series the result is defined, nonpositive, and
zero exactly when the series is non-decreasing throughout. -/
theorem mdd_spec (l : List ℚ) (hne : l ≠ []) (hpos : ∀ x ∈ l, 0 < x) :
    ∃ d, FinancialCalculations.calculate_max_drawdown l = some d ∧ d ≤ 0 ∧
      (d = 0 ↔ l.Chain' (· ≤ ·)) := by
  rcases l with _ | ⟨x, xs⟩
  · exact absurd rfl hne
  have hx : 0 < x := hpos x (List.mem_cons_self x xs)
  have hxs : ∀ y ∈ xs, 0 < y := fun y hy => hpos y (List.mem_cons.mpr (Or.inr hy))
  have hg := gdd_facts xs x hx hxs
  have hx0 : x / x - 1 = 0 := by
    rw [div_self hx.ne']; ring
  refine ⟨(List.zipWith (fun p q => p / q - 1) xs
      (FinancialCalculations.expMaxAux x xs)).foldl min (x / x - 1), ?_, ?_, ?_⟩
  · rfl
  · exact le_trans (foldl_min_le_init _ _) (le_of_eq hx0)
  · rw [hx0]
    constructor
    · intro h0
      have hall : ∀ d ∈ List.zipWith (fun p q => p / q - 1) xs
          (FinancialCalculations.expMaxAux x xs), d = 0 := by
        intro d hd
        exact le_antisymm (hg.1 d hd) ((foldl_min_eq_init_iff _ 0).mp h0 d hd)
      exact hg.2.mp hall
    · intro hchain
      have hall := hg.2.mpr hchain
      exact (foldl_min_eq_init_iff _ 0).mpr (fun y hy => le_of_eq (hall y hy).symm)

/- Bridge lemmas: on NaN-free positive data, the skipna Series pipeline
of `RiskAnalyzer.calculate_max_drawdown` computes the price-based
drawdown of the normalized price series. -/

/-- `pctAux` on defined cells is the pure pct_change. -/
theorem pctAux_map_some (cs : List ℚ) :
    ∀ p : ℚ, p ≠ 0 → (∀ c ∈ cs, c ≠ 0) →
      pctAux (some p) (cs.map some) = (pctPure p cs).map some := by
  induction cs with
  | nil => intro p hp h; simp [pctAux, pctPure]
  | cons y ys ih =>
    intro p hp h
    have hy : y ≠ 0 := h y (List.mem_cons_self y ys)
    simp only [List.map_cons, pctAux, pctPure]
    rw [ih y hy (fun c hc => h c (List.mem_cons.mpr (Or.inr hc)))]
    simp [divC, subC, hp]

/-- Adding one to pure pct_change values gives consecutive quotients. -/
theorem map_oneAdd_pctPure (cs : List ℚ) :
    ∀ p : ℚ, p ≠ 0 → (∀ c ∈ cs, c ≠ 0) →
      (pctPure p cs).map (fun r => 1 + r) = quotStep p cs := by
  induction cs with
  | nil => intro p hp h; simp [pctPure, quotStep]
  | cons y ys ih =>
    intro p hp h
    have hy : y ≠ 0 := h y (List.mem_cons_self y ys)
    simp only [pctPure, quotStep, List.map_cons]
    rw [List.cons_eq_cons]
    constructor
    · field_simp
    · exact ih y hy (fun c hc => h c (List.mem_cons.mpr (Or.inr hc)))

/-- `cumprodAux` on defined cells is the pure running product. -/
theorem cumprodAux_map_some (l : List ℚ) :
    ∀ a : ℚ, cumprodAux a (l.map some) = (prodScan a l).map some := by
  induction l with
  | nil => intro a; simp [cumprodAux, prodScan]
  | cons x xs ih => intro a; simp [cumprodAux, prodScan, ih]

/-- Running products of consecutive quotients telescope. -/
theorem prodScan_quotStep (cs : List ℚ) :
    ∀ a p : ℚ, p ≠ 0 → (∀ c ∈ cs, c ≠ 0) →
      prodScan a (quotStep p cs) = cs.map (fun c => a * c / p) := by
  induction cs with
  | nil => intro a p hp h; simp [quotStep, prodScan]
  | cons y ys ih =>
    intro a p hp h
    have hy : y ≠ 0 := h y (List.mem_cons_self y ys)
    simp only [quotStep, prodScan, List.map_cons]
    rw [List.cons_eq_cons]
    constructor
    · rw [mul_div_assoc]
    · rw [ih (a * (y / p)) y hy (fun c hc => h c (List.mem_cons.mpr (Or.inr hc)))]
      congr 1
      funext c
      field_simp
      ring

/-- `expMaxCellAux` on defined cells is the pure expanding maximum. -/
theorem expMaxCellAux_map_some (l : List ℚ) :
    ∀ m : ℚ, expMaxCellAux (some m) (l.map some) =
      (FinancialCalculations.expMaxAux m l).map some := by
  induction l with
  | nil => intro m; simp [expMaxCellAux, FinancialCalculations.expMaxAux]
  | cons x xs ih =>
    intro m
    simp [expMaxCellAux, FinancialCalculations.expMaxAux, ih]

/-- `expandingMaxSkipNa` on defined cells is the pure expanding maximum. -/
theorem expandingMaxSkipNa_map_some (l : List ℚ) :
    expMaxCellAux none (l.map some) =
      (FinancialCalculations.expandingMax l).map some := by
  cases l with
  | nil => simp [expMaxCellAux, FinancialCalculations.expandingMax]
  | cons x xs =>
    simp [expMaxCellAux, FinancialCalculations.expandingMax,
      expMaxCellAux_map_some]

/-- The drawdown zip on defined cells with nonzero denominators is pure. -/
theorem zip_dd_map_some (A : List ℚ) :
    ∀ B : List ℚ, (∀ b ∈ B, b ≠ 0) →
      List.zipWith (fun c m => subC (divC c m) (some 1)) (A.map some) (B.map some) =
        (List.zipWith (fun p q => p / q - 1) A B).map some := by
  induction A with
  | nil => intro B h; simp
  | cons a as ih =>
    intro B h
    cases B with
    | nil => simp
    | cons b bs =>
      have hb : b ≠ 0 := h b (List.mem_cons_self b bs)
      simp only [List.map_cons, List.zipWith_cons_cons]
      rw [List.cons_eq_cons]
      constructor
      · simp [divC, subC, hb]
      · exact ih bs (fun x hx => h x (List.mem_cons.mpr (Or.inr hx)))

/-- `minSkipNaAux` on defined cells is the folded minimum. -/
theorem minSkipNaAux_map_some (gs : List ℚ) :
    ∀ a : ℚ, minSkipNaAux (some a) (gs.map some) = some (gs.foldl min a) := by
  induction gs with
  | nil => intro a; simp [minSkipNaAux]
  | cons g rest ih => intro a; simp [minSkipNaAux, ih]

/-- Entries of the expanding-maximum worker are positive on positive data. -/
theorem expMaxAux_pos (l : List ℚ) :
    ∀ m : ℚ, 0 < m → (∀ x ∈ l, 0 < x) →
      ∀ b ∈ FinancialCalculations.expMaxAux m l, 0 < b := by
  induction l with
  | nil => intro m hm hl b hb; cases hb
  | cons x xs ih =>
    intro m hm hl b hb
    have hx : 0 < x := hl x (List.mem_cons_self x xs)
    rcases List.mem_cons.mp hb with rfl | hb
    · exact lt_of_lt_of_le hm (le_max_left m x)
    · exact ih (max m x) (lt_of_lt_of_le hm (le_max_left m x))
        (fun y hy => hl y (List.mem_cons.mpr (Or.inr hy))) b hb

/-- Entries of the expanding maximum are positive on positive data. -/
theorem expandingMax_pos (l : List ℚ) (hl : ∀ x ∈ l, 0 < x) :
    ∀ b ∈ FinancialCalculations.expandingMax l, 0 < b := by
  cases l with
  | nil => intro b hb; cases hb
  | cons x xs =>
    intro b hb
    have hx : 0 < x := hl x (List.mem_cons_self x xs)
    rcases List.mem_cons.mp hb with rfl | hb
    · exact hx
    · exact expMaxAux_pos xs x hx
        (fun y hy => hl y (List.mem_cons.mpr (Or.inr hy))) b hb

/-- Bridge: on a positive price series, the returns-based drawdown of
`RiskAnalyzer` equals the price-based drawdown of the series normalized
by the first close — the first bar enters only as normalization, not as
a level of the running maximum. -/
theorem riskAnalyzer_mdd_bridge (c0 : ℚ) (cs : List ℚ)
    (hc0 : 0 < c0) (hcs : ∀ c ∈ cs, 0 < c) :
    RiskAnalyzer.calculate_max_drawdown (pctChangeS ((c0 :: cs).map some)) =
      FinancialCalculations.calculate_max_drawdown
        (cs.map (fun c => 1 * c / c0)) := by
  have hne : ∀ c ∈ cs, c ≠ 0 := fun c hc => (hcs c hc).ne'
  have h1 : pctChangeS ((c0 :: cs).map some) =
      none :: (pctPure c0 cs).map some := by
    simp only [List.map_cons, pctChangeS]
    rw [pctAux_map_some cs c0 hc0.ne' hne]
  set CR : List ℚ := cs.map (fun c => 1 * c / c0) with hCR
  have hCRpos : ∀ x ∈ CR, 0 < x := by
    intro x hx
    rcases List.mem_map.mp hx with ⟨c, hc, rfl⟩
    have := hcs c hc
    positivity
  have h2 : (none :: (pctPure c0 cs).map some).map (Option.map (fun r => 1 + r)) =
      none :: (quotStep c0 cs).map some := by
    simp only [List.map_cons, Option.map_none', List.map_map]
    congr 1
    calc (pctPure c0 cs).map (Option.map (fun r => 1 + r) ∘ some)
        = (pctPure c0 cs).map (some ∘ (fun r => 1 + r)) := rfl
      _ = ((pctPure c0 cs).map (fun r => 1 + r)).map some := by
          rw [List.map_map]
      _ = (quotStep c0 cs).map some := by
          rw [map_oneAdd_pctPure cs c0 hc0.ne' hne]
  have h3 : cumprodSkipNa (none :: (quotStep c0 cs).map some) =
      none :: CR.map some := by
    simp only [cumprodSkipNa, cumprodAux]
    rw [cumprodAux_map_some, prodScan_quotStep cs 1 c0 hc0.ne' hne]
  have h4 : expandingMaxSkipNa (none :: CR.map some) =
      none :: (FinancialCalculations.expandingMax CR).map some := by
    simp only [expandingMaxSkipNa, expMaxCellAux]
    rw [expandingMaxSkipNa_map_some]
  have h5 : List.zipWith (fun c m => subC (divC c m) (some 1))
        (none :: CR.map some)
        (none :: (FinancialCalculations.expandingMax CR).map some) =
      none :: (List.zipWith (fun p q => p / q - 1) CR
        (FinancialCalculations.expandingMax CR)).map some := by
    simp only [List.zipWith_cons_cons]
    rw [zip_dd_map_some CR (FinancialCalculations.expandingMax CR)
      (fun b hb => (expandingMax_pos CR hCRpos b hb).ne')]
    simp [divC, subC]
  have h6 : ∀ G : List ℚ, minSkipNa (none :: G.map some) =
      FinancialCalculations.minList G := by
    intro G
    cases G with
    | nil => rfl
    | cons g gs =>
      simp [minSkipNa, minSkipNaAux, minSkipNaAux_map_some,
        FinancialCalculations.minList]
  simp only [RiskAnalyzer.calculate_max_drawdown]
  rw [h1, h2, h3, h4, h5, h6]
  rfl

/-- C6 counterexample: the claim asserts max_drawdown = 0 iff the price
series is non-decreasing throughout, for the embedded
`RiskAnalyzer.calculate_max_drawdown`; the close series [2, 1, 1] is
strictly decreasing at its first step yet yields max_drawdown = 0,
because the running maximum starts at the first cumulative return and
never sees the initial bar's level. -/
theorem c6_drawdown_counterexample :
    RiskAnalyzer.calculate_max_drawdown
        (pctChangeS (([2, 1, 1] : List ℚ).map some)) = some 0 ∧
    ¬ ([2, 1, 1] : List ℚ).Chain' (· ≤ ·) := by
  constructor
  · norm_num [RiskAnalyzer.calculate_max_drawdown, pctChangeS, pctAux, divC,
      subC, cumprodSkipNa, cumprodAux, expandingMaxSkipNa, expMaxCellAux,
      minSkipNa, minSkipNaAux]
  · norm_num [List.chain'_cons]

/-- C6 (amended): for every positive price series with at least 2 points,
both embedded drawdown computations are nonpositive; the price-based
`FinancialCalculations.calculate_max_drawdown` is 0 iff the whole series
is non-decreasing, while the returns-based
`RiskAnalyzer.calculate_max_drawdown` is 0 iff the series is
non-decreasing from the second bar onward (a drop from the first to the
second close is invisible to its running maximum). -/
theorem c6_drawdown_amended (closes : List ℚ) (h2 : 2 ≤ closes.length)
    (hpos : ∀ c ∈ closes, 0 < c) :
    (∃ d, FinancialCalculations.calculate_max_drawdown closes = some d ∧
      d ≤ 0 ∧ (d = 0 ↔ closes.Chain' (· ≤ ·))) ∧
    (∃ d, RiskAnalyzer.calculate_max_drawdown (pctChangeS (closes.map some)) =
      some d ∧ d ≤ 0 ∧ (d = 0 ↔ closes.tail.Chain' (· ≤ ·))) := by
  rcases closes with _ | ⟨c0, cs⟩
  · simp at h2
  have hc0 : 0 < c0 := hpos c0 (List.mem_cons_self c0 cs)
  have hcs : ∀ c ∈ cs, 0 < c := fun c hc => hpos c (List.mem_cons.mpr (Or.inr hc))
  have hcsne : cs ≠ [] := by
    intro h
    subst h
    simp at h2
  constructor
  · exact mdd_spec (c0 :: cs) (by simp) hpos
  · rw [riskAnalyzer_mdd_bridge c0 cs hc0 hcs]
    have hCRpos : ∀ x ∈ cs.map (fun c => 1 * c / c0), 0 < x := by
      intro x hx
      rcases List.mem_map.mp hx with ⟨c, hc, rfl⟩
      have := hcs c hc
      positivity
    have hCRne : cs.map (fun c => 1 * c / c0) ≠ [] := by
      intro h
      exact hcsne (List.map_eq_nil.mp h)
    obtain ⟨d, hd, hle, hiff⟩ := mdd_spec _ hCRne hCRpos
    refine ⟨d, hd, hle, ?_⟩
    rw [hiff]
    have key : ∀ a b : ℚ, (1 * a / c0 ≤ 1 * b / c0) ↔ a ≤ b := by
      intro a b
      rw [one_mul, one_mul, div_le_div_iff_of_pos_right hc0]
    simp only [List.tail_cons]
    rw [List.chain'_map]
    constructor
    · intro h
      exact h.imp (fun a b hab => (key a b).mp hab)
    · intro h
      exact h.imp (fun a b hab => (key a b).mpr hab)

/-- C7: for any non-empty return series, VaR-95 is defined, the set of
returns at or below it is non-empty (so CVaR-95 is defined), and the
conditional tail mean CVaR-95 is at most the percentile cutoff VaR-95. -/
theorem c7_cvar_le_var (returns : List ℚ) (hne : returns ≠ []) :
    ∃ v c, RiskCalculations.calculate_var returns = some v ∧
      RiskCalculations.calculate_cvar returns = some c ∧ c ≤ v ∧
      returns.filter (fun r => r ≤ v) ≠ [] := by
  have hperm := List.perm_insertionSort (· ≤ ·) returns
  have hsorted := List.sorted_insertionSort (· ≤ ·) returns
  have hslen : (RiskCalculations.sortedOf returns).length = returns.length :=
    hperm.length_eq
  have hn1 : 1 ≤ returns.length := List.length_pos.mpr hne
  have hn1Q : (1 : ℚ) ≤ (returns.length : ℚ) := by exact_mod_cast hn1
  have hpos0 : 0 ≤ RiskCalculations.pctPos returns 5 := by
    unfold RiskCalculations.pctPos
    have h : (0 : ℚ) ≤ (returns.length : ℚ) - 1 := by linarith
    nlinarith
  have hposle : RiskCalculations.pctPos returns 5 ≤ (returns.length : ℚ) - 1 := by
    unfold RiskCalculations.pctPos
    nlinarith
  have hfl0 : 0 ≤ ⌊RiskCalculations.pctPos returns 5⌋ :=
    Int.floor_nonneg.mpr hpos0
  have hkn : RiskCalculations.pctIdx returns 5 < returns.length := by
    unfold RiskCalculations.pctIdx
    have h2 : ⌊RiskCalculations.pctPos returns 5⌋ ≤ (returns.length : ℤ) - 1 := by
      have h3 := le_trans (Int.floor_le (RiskCalculations.pctPos returns 5)) hposle
      exact_mod_cast h3
    omega
  have hks : RiskCalculations.pctIdx returns 5 <
      (RiskCalculations.sortedOf returns).length := by
    rw [hslen]; exact hkn
  have h0s : 0 < (RiskCalculations.sortedOf returns).length := by
    rw [hslen]; exact hn1
  have hlo : RiskCalculations.pctLo returns 5 =
      (RiskCalculations.sortedOf returns).get ⟨RiskCalculations.pctIdx returns 5, hks⟩ := by
    unfold RiskCalculations.pctLo
    rw [List.getD_eq_getElem _ _ hks, List.get_eq_getElem]
  have hhilo : RiskCalculations.pctLo returns 5 ≤ RiskCalculations.pctHi returns 5 := by
    by_cases hk1 : RiskCalculations.pctIdx returns 5 + 1 <
        (RiskCalculations.sortedOf returns).length
    · have hh : RiskCalculations.pctHi returns 5 =
          (RiskCalculations.sortedOf returns).get
            ⟨RiskCalculations.pctIdx returns 5 + 1, hk1⟩ := by
        unfold RiskCalculations.pctHi
        rw [List.getD_eq_getElem _ _ hk1, List.get_eq_getElem]
      rw [hh, hlo]
      exact hsorted.rel_get_of_le (by simp [Fin.mk_le_mk])
    · push_neg at hk1
      unfold RiskCalculations.pctHi
      rw [List.getD_eq_default _ _ hk1]
  have hfrac0 : 0 ≤ RiskCalculations.pctPos returns 5 -
      (⌊RiskCalculations.pctPos returns 5⌋ : ℚ) :=
    sub_nonneg.mpr (Int.floor_le _)
  have hlov : RiskCalculations.pctLo returns 5 ≤
      RiskCalculations.pctLo returns 5 +
        (RiskCalculations.pctPos returns 5 -
          (⌊RiskCalculations.pctPos returns 5⌋ : ℚ)) *
          (RiskCalculations.pctHi returns 5 - RiskCalculations.pctLo returns 5) :=
    le_add_of_nonneg_right (mul_nonneg hfrac0 (sub_nonneg.mpr hhilo))
  have hvar : RiskCalculations.calculate_var returns =
      some (RiskCalculations.pctLo returns 5 +
        (RiskCalculations.pctPos returns 5 -
          (⌊RiskCalculations.pctPos returns 5⌋ : ℚ)) *
          (RiskCalculations.pctHi returns 5 - RiskCalculations.pctLo returns 5)) := by
    simp only [RiskCalculations.calculate_var, RiskCalculations.percentileLinear,
      if_neg hne]
  have hmin_mem : (RiskCalculations.sortedOf returns).get ⟨0, h0s⟩ ∈ returns :=
    hperm.mem_iff.mp ((RiskCalculations.sortedOf returns).get_mem 0 h0s)
  have hmin_le_lo : (RiskCalculations.sortedOf returns).get ⟨0, h0s⟩ ≤
      RiskCalculations.pctLo returns 5 := by
    rw [hlo]
    exact hsorted.rel_get_of_le (by simp [Fin.mk_le_mk])
  have hmem_filter : (RiskCalculations.sortedOf returns).get ⟨0, h0s⟩ ∈
      returns.filter (fun r => r ≤ RiskCalculations.pctLo returns 5 +
        (RiskCalculations.pctPos returns 5 -
          (⌊RiskCalculations.pctPos returns 5⌋ : ℚ)) *
          (RiskCalculations.pctHi returns 5 - RiskCalculations.pctLo returns 5)) :=
    List.mem_filter.mpr ⟨hmin_mem, by simpa using le_trans hmin_le_lo hlov⟩
  have hSne : returns.filter (fun r => r ≤ RiskCalculations.pctLo returns 5 +
      (RiskCalculations.pctPos returns 5 -
        (⌊RiskCalculations.pctPos returns 5⌋ : ℚ)) *
        (RiskCalculations.pctHi returns 5 - RiskCalculations.pctLo returns 5)) ≠ [] :=
    List.ne_nil_of_mem hmem_filter
  set vq : ℚ := RiskCalculations.pctLo returns 5 +
    (RiskCalculations.pctPos returns 5 -
      (⌊RiskCalculations.pctPos returns 5⌋ : ℚ)) *
      (RiskCalculations.pctHi returns 5 - RiskCalculations.pctLo returns 5) with hvq
  refine ⟨vq, (returns.filter (fun r => r ≤ vq)).sum /
      ((returns.filter (fun r => r ≤ vq)).length : ℚ), hvar, ?_, ?_, hSne⟩
  · simp only [RiskCalculations.calculate_cvar, hvar, Option.some_bind, meanQ,
      if_neg hSne]
  · have hall : ∀ x ∈ returns.filter (fun r => r ≤ vq), x ≤ vq := by
      intro x hx
      have hx2 := (List.mem_filter.mp hx).2
      simpa using hx2
    have hlen0 : 0 < ((returns.filter (fun r => r ≤ vq)).length : ℚ) := by
      exact_mod_cast List.length_pos.mpr hSne
    rw [div_le_iff hlen0]
    calc (returns.filter (fun r => r ≤ vq)).sum
        ≤ (returns.filter (fun r => r ≤ vq)).length • vq :=
          List.sum_le_card_nsmul _ _ hall
      _ = vq * ((returns.filter (fun r => r ≤ vq)).length : ℚ) := by
          rw [nsmul_eq_mul]; ring

/-- Witness for C7 at the concrete return series [1/10, -1/5, 3/100]. -/
theorem c7_cvar_le_var_witness :
    ∃ v c, RiskCalculations.calculate_var [1/10, -1/5, 3/100] = some v ∧
      RiskCalculations.calculate_cvar [1/10, -1/5, 3/100] = some c ∧ c ≤ v ∧
      ([1/10, -1/5, 3/100] : List ℚ).filter (fun r => r ≤ v) ≠ [] :=
  c7_cvar_le_var [1/10, -1/5, 3/100] (by simp)

/-- A frame whose five required cells are all defined but whose extra
column carries a null (as yfinance frames can, e.g. Dividends). -/
def dfExtraNull : Df :=
  ⟨1, [("Open", [some 1]), ("High", [some 1]), ("Low", [some 1]),
       ("Close", [some 1]), ("Volume", [some 1]), ("Extra", [none])]⟩

/-- A well-formed one-row OHLCV frame. -/
def dfOhlcvGood : Df :=
  ⟨1, [("Open", [some 1]), ("High", [some 2]), ("Low", [some 1]),
       ("Close", [some 2]), ("Volume", [some 3])]⟩

/-- Spec-side predicate: every required OHLCV column is present. -/
def hasRequiredCols (df : Df) : Prop :=
  ∀ c ∈ required_columns, ∃ p ∈ df.cols, p.1 = c

/-- Spec-side predicate: some cell anywhere in the frame is null. -/
def hasNullCell (df : Df) : Prop :=
  ∃ p ∈ df.cols, ∃ x ∈ p.2, x = none

/-- C8 counterexample: the claim says validation raises exactly when a
required column is missing, the frame is empty, or a required cell is
null; this frame passes all three of those checks (all required columns
present and non-null, one row) yet `validate_ohlcv_data` raises, because
the code's null scan covers every column, including the extra one. -/
theorem c8_validate_counterexample :
    validate_ohlcv_data dfExtraNull = .error "Dataset contains missing values" ∧
    (∀ c ∈ required_columns, ∀ p ∈ dfExtraNull.cols, p.1 = c →
      ∀ x ∈ p.2, x ≠ none) ∧
    hasRequiredCols dfExtraNull ∧ dfExtraNull.nrows ≠ 0 := by
  refine ⟨by rfl, by decide, ?_, by decide⟩
  unfold hasRequiredCols
  decide

/-- C8 (amended): `validate_ohlcv_data` raises iff a required column is
missing, or the frame has zero rows, or any cell in any column (not
only the required five) is null, checked in that order with the three
source messages; it returns True exactly on frames passing all three
checks (and, being a pure fold over the frame, never modifies it). -/
theorem c8_validate_amended (df : Df) :
    (validate_ohlcv_data df = .ok true ↔
      (hasRequiredCols df ∧ df.nrows ≠ 0 ∧ ¬ hasNullCell df)) ∧
    (validate_ohlcv_data df = .error "Missing required columns in OHLCV data" ↔
      ¬ hasRequiredCols df) ∧
    (validate_ohlcv_data df = .error "Empty dataset" ↔
      (hasRequiredCols df ∧ df.nrows = 0)) ∧
    (validate_ohlcv_data df = .error "Dataset contains missing values" ↔
      (hasRequiredCols df ∧ df.nrows ≠ 0 ∧ hasNullCell df)) := by
  have hreq : (required_columns.all fun c => df.cols.any fun p => p.1 == c) = true ↔
      hasRequiredCols df := by
    simp [hasRequiredCols, List.all_eq_true, List.any_eq_true]
  have hnull : (df.cols.any fun p => p.2.any fun x => x.isNone) = true ↔
      hasNullCell df := by
    simp [hasNullCell, List.any_eq_true, Option.isNone_iff_eq_none]
  unfold validate_ohlcv_data
  split_ifs with h1 h2 h3 <;> simp_all

/-- Witness for C8 (amended): the well-formed frame validates to True. -/
theorem c8_validate_amended_witness :
    validate_ohlcv_data dfOhlcvGood = .ok true :=
  (c8_validate_amended dfOhlcvGood).1.mpr
    (by unfold hasRequiredCols hasNullCell; decide)

/- C3: the RSI of a flat series.  On a constant close series all deltas
are 0, so both rolling means are 0 and rs = 0/0, which numpy evaluates
to NaN, making every RSI entry NaN — not the documented policy value
100. -/

/-- diff of a constant series is constantly zero after the leading NaN. -/
theorem diffAux_replicate (c : ℚ) (n : ℕ) :
    TechnicalCalculations.diffAux (some c) (List.replicate n (some c)) =
      List.replicate n (some 0) := by
  induction n with
  | zero => rfl
  | succ k ih =>
    simp [List.replicate_succ, TechnicalCalculations.diffAux, subC, ih]

/-- `filterMap id` collapses a replicated defined cell. -/
theorem filterMap_id_replicate (k : ℕ) (q : ℚ) :
    (List.replicate k (some q)).filterMap id = List.replicate k q := by
  induction k with
  | zero => rfl
  | succ n ih => simp [List.replicate_succ, ih]

/-- Rolling mean of a constant-zero series: NaN during warm-up, 0 once
the window is full. -/
theorem rollingMean_replicate_zero (w m : ℕ) (hw : 0 < w) :
    TechnicalCalculations.rollingMeanS w (List.replicate m (some (0:ℚ))) =
      (List.range m).map (fun i => if i + 1 < w then none else some 0) := by
  unfold TechnicalCalculations.rollingMeanS
  rw [List.length_replicate]
  apply List.map_congr_left
  intro i hi
  have him : i < m := List.mem_range.mp hi
  by_cases hiw : i + 1 < w
  · simp [hiw]
  · have hmin : min (i + 1) m = i + 1 := by omega
    have hK : 0 < i + 1 - (i + 1 - w) := by omega
    simp only [if_neg hiw, List.take_replicate, List.drop_replicate, hmin]
    simp [meanQ, filterMap_id_replicate, List.mem_replicate, hK.ne',
      List.sum_replicate]

/-- Helper: zipping two identical mapped lists pointwise. -/
theorem zipWith_map_same {α β : Type} (h2 : α → α → β) (f : ℕ → α) (r : List ℕ) :
    List.zipWith h2 (r.map f) (r.map f) = r.map (fun i => h2 (f i) (f i)) := by
  induction r with
  | nil => rfl
  | cons x xs ih => simp [ih]

/-- `whereLoss` of a constant-zero delta series is constantly zero. -/
theorem whereLoss_zero (n : ℕ) :
    TechnicalCalculations.whereLoss (List.replicate n (some (0:ℚ))) =
      List.replicate n (some 0) := by
  induction n with
  | zero => rfl
  | succ k ih =>
    simp only [TechnicalCalculations.whereLoss, List.replicate_succ,
      List.map_cons]
    rw [List.cons_eq_cons]
    refine ⟨by norm_num, ?_⟩
    simpa [TechnicalCalculations.whereLoss] using ih

/-- `whereGain` of a constant-zero delta series is constantly zero. -/
theorem whereGain_zero (n : ℕ) :
    TechnicalCalculations.whereGain (List.replicate n (some (0:ℚ))) =
      List.replicate n (some 0) := by
  induction n with
  | zero => rfl
  | succ k ih =>
    simp only [TechnicalCalculations.whereGain, List.replicate_succ,
      List.map_cons]
    rw [List.cons_eq_cons]
    refine ⟨by norm_num, ?_⟩
    simpa [TechnicalCalculations.whereGain] using ih

/-- C3: on the flat 30-bar close series (constant 100) the rolling
average loss over the 14-bar RSI window is 0 at every defined position
(shown at the last bar), yet the RSI computation does not resolve to the
documented policy value 100: rs = 0/0 is NaN in numpy, so every RSI
entry is NaN (no exception is raised — the embedding is total — but the
policy value 100 never appears). -/
theorem c3_rsi_flat_nan :
    (TechnicalCalculations.rollingMeanS 14
        (TechnicalCalculations.whereLoss
          (TechnicalCalculations.diffS
            (List.replicate 30 (some (100:ℚ)))))).getD 29 none = some 0 ∧
    TechnicalCalculations.calculate_rsi (List.replicate 30 (some 100)) 14 =
      List.replicate 30 NpVal.nan := by
  have hdiff : TechnicalCalculations.diffS (List.replicate 30 (some (100:ℚ))) =
      none :: List.replicate 29 (some 0) := by
    rw [show (30 : ℕ) = 29 + 1 from rfl, List.replicate_succ]
    simp only [TechnicalCalculations.diffS]
    rw [diffAux_replicate]
  have hloss : TechnicalCalculations.whereLoss (none :: List.replicate 29 (some (0:ℚ))) =
      List.replicate 30 (some 0) := by
    show some 0 :: TechnicalCalculations.whereLoss (List.replicate 29 (some (0:ℚ))) =
      List.replicate 30 (some 0)
    rw [whereLoss_zero 29]
    rfl
  have hgain : TechnicalCalculations.whereGain (none :: List.replicate 29 (some (0:ℚ))) =
      List.replicate 30 (some 0) := by
    show some 0 :: TechnicalCalculations.whereGain (List.replicate 29 (some (0:ℚ))) =
      List.replicate 30 (some 0)
    rw [whereGain_zero 29]
    rfl
  have hroll := rollingMean_replicate_zero 14 30 (by norm_num)
  constructor
  · rw [hdiff, hloss, hroll]
    have hlen : ((List.range 30).map
        (fun i => if i + 1 < 14 then (none : Cell) else some 0)).length = 30 := by
      simp
    rw [List.getD_eq_getElem _ _ (by rw [hlen]; norm_num)]
    simp [List.getElem_map, List.getElem_range]
  · simp only [TechnicalCalculations.calculate_rsi]
    rw [hdiff, hloss, hgain, hroll, zipWith_map_same]
    have hfun : ∀ i ∈ List.range 30,
        TechnicalCalculations.rsiOf
          (TechnicalCalculations.rsOf
            (if i + 1 < 14 then (none : Cell) else some 0)
            (if i + 1 < 14 then (none : Cell) else some 0)) = NpVal.nan := by
      intro i _
      by_cases hiw : i + 1 < 14 <;>
        simp [hiw, TechnicalCalculations.rsOf, TechnicalCalculations.rsiOf]
    rw [List.map_congr_left hfun, List.map_const']
    simp

/- Lemmas about column assignment. -/

/-- Looking a column up after a set: the set name yields the new series,
any other name is untouched. -/
theorem lookup_setColList (n m : String) (s : List Cell) :
    ∀ cols : List (String × List Cell),
      (setColList cols m s).lookup n = if n = m then some s else cols.lookup n := by
  intro cols
  induction cols with
  | nil =>
    by_cases hnm : n = m
    · subst hnm
      simp [setColList, List.lookup_cons]
    · have hb : (n == m) = false := beq_eq_false_iff_ne.mpr hnm
      simp [setColList, List.lookup_cons, hb, hnm]
  | cons p rest ih =>
    obtain ⟨k, t⟩ := p
    by_cases hkm : k = m
    · subst hkm
      by_cases hnk : n = k
      · subst hnk
        simp [setColList, List.lookup_cons]
      · have hb : (n == k) = false := beq_eq_false_iff_ne.mpr hnk
        simp [setColList, List.lookup_cons, hb, hnk]
    · by_cases hnk : n = k
      · subst hnk
        have hnm : n ≠ m := fun h => hkm h
        simp [setColList, hkm, List.lookup_cons, hnm]
      · have hb : (n == k) = false := beq_eq_false_iff_ne.mpr hnk
        simp [setColList, hkm, List.lookup_cons, hb, hnk, ih]

/-- `colGet` after `setCol`. -/
theorem colGet_setCol (df : Df) (n m : String) (s : List Cell) :
    colGet (setCol df m s) n = if n = m then some s else colGet df n := by
  simp [colGet, setCol, lookup_setColList]

/-- Folding column assignments whose names all differ from `name` leaves
`colGet name` untouched. -/
theorem colGet_foldl_setCol (name : String) (cols : List (String × List Cell)) :
    ∀ df : Df, (∀ p ∈ cols, p.1 ≠ name) →
      colGet (cols.foldl (fun d p => setCol d p.1 p.2) df) name = colGet df name := by
  induction cols with
  | nil => intro df _; rfl
  | cons p rest ih =>
    intro df h
    simp only [List.foldl_cons]
    rw [ih (setCol df p.1 p.2) (fun q hq => h q (List.mem_cons.mpr (Or.inr hq))),
      colGet_setCol]
    have hne : name ≠ p.1 := fun hh => (h p (List.mem_cons_self p rest)) hh.symm
    simp [hne]

/-- The names of the columns the indicator body assigns in place. -/
def tiDerivedNames : List String :=
  ["MA20", "MA50", "MA200", "RSI", "MACD", "MACD_Signal",
   "BB_upper", "BB_middle", "BB_lower"]

set_option maxHeartbeats 4000000 in
/-- Case analysis of the indicator body: a success carries exactly the
nine derived columns and a dictionary containing Overall_Signal; an
error carries either no columns (failure before the assignments) or the
same nine derived columns. -/
theorem tiBody_cases (df : Df) :
    (∀ cols ind, tiBody df = .ok (cols, ind) →
      cols.map Prod.fst = tiDerivedNames ∧
        (ind.lookup "Overall_Signal").isSome) ∧
    (∀ e cols, tiBody df = .error (e, cols) →
      (cols = [] ∨ cols.map Prod.fst = tiDerivedNames)) := by
  constructor
  · intro cols ind h
    unfold tiBody at h
    repeat' (first | split at h | dsimp only at h)
    all_goals cases h
    all_goals
      exact ⟨by simp [tiNewCols, tiDerivedNames],
        by simp [tiDict, List.lookup_cons]⟩
  · intro e cols h
    unfold tiBody at h
    repeat' (first | split at h | dsimp only at h)
    all_goals cases h
    all_goals first
      | exact Or.inl rfl
      | (right; simp [tiNewCols, tiDerivedNames])

/-- Witness for C6 (amended) at the positive series [1, 2]. -/
theorem c6_drawdown_amended_witness :
    (∃ d, FinancialCalculations.calculate_max_drawdown [1, 2] = some d ∧
      d ≤ 0 ∧ (d = 0 ↔ ([1, 2] : List ℚ).Chain' (· ≤ ·))) ∧
    (∃ d, RiskAnalyzer.calculate_max_drawdown
        (pctChangeS (([1, 2] : List ℚ).map some)) =
      some d ∧ d ≤ 0 ∧ (d = 0 ↔ ([1, 2] : List ℚ).tail.Chain' (· ≤ ·))) :=
  c6_drawdown_amended [1, 2] (by norm_num) (by norm_num)

/-- C9 counterexample: a constant benchmark close series has zero
benchmark return variance, yet `calculate_beta` does not return None —
the numpy division emits a warning and the function returns the
non-finite quotient (here 0/0 = NaN), so "variance equal to zero" is not
a None case as the claim states. -/
theorem c9_beta_counterexample :
    RiskAnalyzer.popVar (dropNa (pctChangeS [some 50, some 50, some 50])) =
      NpVal.num 0 ∧
    RiskAnalyzer.calculate_beta [some (1/100), some (-1/100)]
      (some [some 50, some 50, some 50]) = some NpVal.nan := by
  have hpct : pctChangeS ([some 50, some 50, some 50] : List Cell) =
      [none, some 0, some 0] := by
    norm_num [pctChangeS, pctAux, divC, subC]
  have hdrop : dropNa [none, some (0:ℚ), some 0] = [0, 0] := by
    simp [dropNa]
  have hdropx : dropNa [some (1/100 : ℚ), some (-1/100)] = [1/100, -1/100] := by
    simp [dropNa]
  have hvar0 : RiskAnalyzer.popVar [0, 0] = NpVal.num 0 := by
    norm_num [RiskAnalyzer.popVar]
  have hcov : RiskAnalyzer.sampleCov [1/100, -1/100] [0, 0] = NpVal.num 0 := by
    norm_num [RiskAnalyzer.sampleCov]
  have hdiv : RiskAnalyzer.divNp (NpVal.num 0) (NpVal.num 0) = NpVal.nan := by
    norm_num [RiskAnalyzer.divNp]
  constructor
  · rw [hpct, hdrop, hvar0]
  · simp only [RiskAnalyzer.calculate_beta]
    rw [hpct, hdrop, hdropx, hcov, hvar0, hdiv]
    norm_num

/-- C9 (amended): `calculate_beta` returns None exactly on the exception
paths — the benchmark download failing, or `np.cov` raising ValueError
on dropna'd return series of different lengths; with equal lengths
(both empty included — `np.cov` on empty arrays and division by a zero
variance only emit warnings) it returns the covariance/variance
quotient under numpy float semantics, a non-finite value rather than
None in the degenerate cases; and the rest of the risk metrics never
depend on the beta outcome (swapping the benchmark changes only the
beta entry). -/
theorem c9_beta_amended :
    (∀ r : List Cell, RiskAnalyzer.calculate_beta r none = none) ∧
    (∀ r b : List Cell,
      ((dropNa r).length = (dropNa (pctChangeS b)).length →
        RiskAnalyzer.calculate_beta r (some b) =
          some (RiskAnalyzer.divNp
            (RiskAnalyzer.sampleCov (dropNa r) (dropNa (pctChangeS b)))
            (RiskAnalyzer.popVar (dropNa (pctChangeS b))))) ∧
      ((dropNa r).length ≠ (dropNa (pctChangeS b)).length →
        RiskAnalyzer.calculate_beta r (some b) = none)) ∧
    (∀ (df : Df) (b1 b2 : Option (List Cell)),
      RiskAnalyzer.stripBeta (RiskAnalyzer.calculate_risk_metrics df b1) =
        RiskAnalyzer.stripBeta (RiskAnalyzer.calculate_risk_metrics df b2)) := by
  refine ⟨fun r => rfl, fun r b => ⟨fun h => ?_, fun h => ?_⟩, fun df b1 b2 => ?_⟩
  · simp only [RiskAnalyzer.calculate_beta]
    rw [if_pos h]
  · simp only [RiskAnalyzer.calculate_beta]
    rw [if_neg h]
  · cases hc : colGet df "Close" with
    | none =>
      simp [RiskAnalyzer.calculate_risk_metrics, hc, RiskAnalyzer.stripBeta]
    | some close =>
      cases hv : RiskAnalyzer.calculate_var (pctChangeS close) with
      | error e =>
        simp [RiskAnalyzer.calculate_risk_metrics, hc, hv,
          RiskAnalyzer.stripBeta]
      | ok var =>
        simp [RiskAnalyzer.calculate_risk_metrics, hc, hv,
          RiskAnalyzer.stripBeta, RiskAnalyzer.nonBetaFields, Except.map]

/-- Witness for C9 (amended): an empty return series against a one-bar
benchmark return makes np.cov raise on mismatched lengths, so beta
degrades to None. -/
theorem c9_beta_amended_witness :
    RiskAnalyzer.calculate_beta [] (some [some 50, some 50]) = none :=
  (c9_beta_amended.2.1 [] [some 50, some 50]).2
    (by norm_num [dropNa, pctChangeS, pctAux, divC, subC,
      List.filterMap_cons])

/-- C2 counterexample: both core computations attach derived columns to
the caller's frame in place — `calculate_risk_metrics` adds a `Returns`
column and `get_technical_indicators` adds the nine indicator columns —
so the claim that "no derived column has been added to the caller's
table" fails on the well-formed one-row frame. -/
theorem c2_mutation_counterexample :
    (RiskAnalyzer.calculate_risk_metrics dfOhlcvGood none).map
        (fun p => p.1.cols.map Prod.fst) =
      .ok ["Open", "High", "Low", "Close", "Volume", "Returns"] ∧
    (get_technical_indicators dfOhlcvGood).1.cols.map Prod.fst =
      ["Open", "High", "Low", "Close", "Volume", "MA20", "MA50", "MA200",
       "RSI", "MACD", "MACD_Signal", "BB_upper", "BB_middle", "BB_lower"] ∧
    dfOhlcvGood.cols.map Prod.fst = ["Open", "High", "Low", "Close", "Volume"] ∧
    ["Open", "High", "Low", "Close", "Volume", "Returns"] ≠
      ["Open", "High", "Low", "Close", "Volume"] := by
  refine ⟨by rfl, by rfl, by rfl, by decide⟩

/-- C2 (amended): neither computation ever overwrites a source OHLCV
column — after `calculate_risk_metrics` (on its success and error paths)
and after `get_technical_indicators`, looking up any of the five source
columns in the caller's frame yields exactly the original series; only
new derived columns are attached. -/
theorem c2_ohlcv_preserved (df : Df) (b : Option (List Cell)) (name : String)
    (hname : name ∈ required_columns) :
    (∀ df1 m, RiskAnalyzer.calculate_risk_metrics df b = .ok (df1, m) →
      colGet df1 name = colGet df name) ∧
    (∀ e df1, RiskAnalyzer.calculate_risk_metrics df b = .error (e, df1) →
      colGet df1 name = colGet df name) ∧
    colGet (get_technical_indicators df).1 name = colGet df name := by
  have hnr : name ≠ "Returns" := by
    simp only [required_columns, List.mem_cons, List.not_mem_nil,
      or_false] at hname
    rcases hname with rfl | rfl | rfl | rfl | rfl <;> decide
  have hdisj : ∀ x ∈ tiDerivedNames, ∀ n ∈ required_columns, x ≠ n := by decide
  refine ⟨?_, ?_, ?_⟩
  · intro df1 m h
    cases hc : colGet df "Close" with
    | none => simp [RiskAnalyzer.calculate_risk_metrics, hc] at h
    | some close =>
      cases hv : RiskAnalyzer.calculate_var (pctChangeS close) with
      | error e => simp [RiskAnalyzer.calculate_risk_metrics, hc, hv] at h
      | ok var =>
        simp only [RiskAnalyzer.calculate_risk_metrics, hc, hv,
          Except.ok.injEq, Prod.mk.injEq] at h
        rw [← h.1, colGet_setCol]
        simp [hnr]
  · intro e df1 h
    cases hc : colGet df "Close" with
    | none =>
      simp only [RiskAnalyzer.calculate_risk_metrics, hc,
        Except.error.injEq, Prod.mk.injEq] at h
      rw [← h.2]
    | some close =>
      cases hv : RiskAnalyzer.calculate_var (pctChangeS close) with
      | error e2 =>
        simp only [RiskAnalyzer.calculate_risk_metrics, hc, hv,
          Except.error.injEq, Prod.mk.injEq] at h
        rw [← h.2, colGet_setCol]
        simp [hnr]
      | ok var =>
        simp [RiskAnalyzer.calculate_risk_metrics, hc, hv] at h
  · cases ht : tiBody df with
    | ok pr =>
      obtain ⟨cols, ind⟩ := pr
      simp only [get_technical_indicators]
      rw [ht]
      apply colGet_foldl_setCol
      intro p hp
      have hkeys := ((tiBody_cases df).1 cols ind ht).1
      have hmem : p.1 ∈ tiDerivedNames := by
        rw [← hkeys]
        exact List.mem_map_of_mem Prod.fst hp
      exact hdisj p.1 hmem name hname
    | error pr =>
      obtain ⟨e, cols⟩ := pr
      simp only [get_technical_indicators]
      rw [ht]
      apply colGet_foldl_setCol
      intro p hp
      rcases (tiBody_cases df).2 e cols ht with rfl | hkeys
      · cases hp
      · have hmem : p.1 ∈ tiDerivedNames := by
          rw [← hkeys]
          exact List.mem_map_of_mem Prod.fst hp
        exact hdisj p.1 hmem name hname

/-- Witness for C2 (amended): the Close column of the well-formed frame
survives `get_technical_indicators` unchanged. -/
theorem c2_ohlcv_preserved_witness :
    colGet (get_technical_indicators dfOhlcvGood).1 "Close" =
      colGet dfOhlcvGood "Close" :=
  (c2_ohlcv_preserved dfOhlcvGood none "Close" (by decide)).2.2

/-- C10: the indicator computation is total at its public boundary — for
every frame the returned dictionary has an Overall_Signal key, and when
any internal step fails the caller receives exactly the fallback mapping
with MA_Status, RSI, MACD, BB_Status and Overall_Signal set to N/A plus
an error entry. -/
theorem c10_indicators_total (df : Df) :
    ((get_technical_indicators df).2.lookup "Overall_Signal").isSome ∧
    (∀ e cols, tiBody df = .error (e, cols) →
      (get_technical_indicators df).2 = tiFallback e) := by
  constructor
  · cases ht : tiBody df with
    | ok pr =>
      obtain ⟨cols, ind⟩ := pr
      simp only [get_technical_indicators]
      rw [ht]
      exact ((tiBody_cases df).1 cols ind ht).2
    | error pr =>
      obtain ⟨e, cols⟩ := pr
      simp only [get_technical_indicators]
      rw [ht]
      simp [tiFallback, List.lookup_cons]
  · intro e cols h
    simp only [get_technical_indicators]
    rw [h]

/-- Witness for C10 at the well-formed one-row frame (which takes the
fallback path, its history being shorter than the trend windows). -/
theorem c10_indicators_total_witness :
    ((get_technical_indicators dfOhlcvGood).2.lookup "Overall_Signal").isSome :=
  (c10_indicators_total dfOhlcvGood).1

end StockAnalysis
